import Mathlib

/-!
Verification of the bashkit specification against the repository's code.

The repository ships the Python embedding layers (`bashkit/deepagents.py`,
`bashkit/langchain.py`, `python/bashkit_py/langchain.py`) and the test
suite; the native interpreter crate behind `bashkit._bashkit` (Session,
parser, executor, registry, resource limiter) is not part of the source
tree.  Definitions for that missing core are therefore modelled from the
spec (sections 3-7) and carry a doc comment starting with
`Modelled from the spec:`.  Definitions for the Python layers are
translated directly from the named source files.
-/

set_option maxRecDepth 4000

/-! ## Data model (spec section 3) -/

/-- Modelled from the spec: the `ExecResult` record returned by the missing
native `Session.execute` — stdout, stderr, exit code (0 = success) and an
optional interpreter-internal error message. -/
structure ExecResult where
  stdout : String
  stderr : String
  exit_code : Nat
  error : Option String
deriving Repr, DecidableEq

/-- Modelled from the spec: derived `success = (exit_code == 0 and error is
None)`. -/
def ExecResult.success (r : ExecResult) : Bool :=
  r.exit_code == 0 && r.error.isNone

/-- Modelled from the spec: a typed parameter value handed to a registered
tool's callback (string / integer / boolean). -/
inductive Value where
  | str (s : String)
  | int (n : Int)
  | bool (b : Bool)
deriving Repr, DecidableEq

/-- Modelled from the spec: the declared type of a schema field. -/
inductive ParamType where
  | string
  | integer
  | boolean
deriving Repr, DecidableEq, BEq

/-- Modelled from the spec: one typed field of a tool's parameter schema. -/
structure SchemaField where
  name : String
  ty : ParamType
deriving Repr

/-- Modelled from the spec: a Command Registry entry — name, description,
optional parameter schema, and the host callback
`(parameters, stdin) -> string`, which may fail. -/
structure ToolDef where
  name : String
  description : String
  schema : Option (List SchemaField)
  callback : List (String × Value) → Option String → Except String String

/-- Modelled from the spec: the Command Registry of one Session. -/
abbrev Registry := List ToolDef

/-- Modelled from the spec: registry lookup by command name. -/
def lookupTool (R : Registry) (n : String) : Option ToolDef :=
  R.find? (fun t => t.name == n)

/-- Modelled from the spec: the Resource Limiter's optional ceilings
`max_commands` and `max_loop_iterations` (unset = unbounded). -/
structure Limits where
  max_commands : Option Nat
  max_loop_iterations : Option Nat
deriving Repr

/-- Modelled from the spec: the mutable state owned by one Session —
variable scope, virtual filesystem, and the two resource counters. -/
structure St where
  vars : List (String × String)
  vfs : List (String × String)
  cmds : Nat
  loops : Nat
deriving Repr

/-- Modelled from the spec: the fresh state a Session starts with and that
`reset()` restores. -/
def initSt : St := ⟨[], [], 0, 0⟩

/-- Modelled from the spec: `admit_command()` — increment the command
counter and abort once the `max_commands` ceiling is exceeded. -/
def admitCmd (L : Limits) (st : St) : Except String St :=
  let st1 := { st with cmds := st.cmds + 1 }
  match L.max_commands with
  | none => .ok st1
  | some m => if m < st1.cmds then .error "max_commands limit exceeded" else .ok st1

/-- Modelled from the spec: `admit_iteration()` — increment the
loop-iteration counter and abort once the `max_loop_iterations` ceiling is
exceeded. -/
def admitIter (L : Limits) (st : St) : Except String St :=
  let st1 := { st with loops := st.loops + 1 }
  match L.max_loop_iterations with
  | none => .ok st1
  | some m => if m < st1.loops then .error "max_loop_iterations limit exceeded" else .ok st1

/-! ## Words, arithmetic and the AST (spec sections 4.1-4.2)

The modelled script subset covers what the spec's testable properties
exercise: simple commands, assignments, `;` lists, `&&` / `||`, `while`
loops, single/double quoting, `$VAR` / `$\x7bVAR\x7d` expansion and
`$((...))` integer arithmetic. -/

/-- Modelled from the spec: integer arithmetic expressions inside
`$((...))` with +, -, *, /, %. -/
inductive AExp where
  | num (n : Int)
  | var (v : String)
  | add (a b : AExp)
  | sub (a b : AExp)
  | mul (a b : AExp)
  | div (a b : AExp)
  | mod (a b : AExp)
deriving Repr

/-- Modelled from the spec: one piece of a word — literal text, a variable
reference, or an arithmetic expansion. -/
inductive WPart where
  | lit (s : String)
  | var (v : String)
  | arith (e : AExp)
deriving Repr

/-- Modelled from the spec: the token stream produced by the lexer. -/
inductive Tok where
  | word (ps : List WPart)
  | semi
  | andand
  | oror
  | heredoc (body : String)
deriving Repr

/-- Modelled from the spec: the AST of shell constructs the Executor
walks. -/
inductive Stmt where
  | nop
  | simple (ws : List (List WPart)) (stdin : Option String)
  | assign (x : String) (w : List WPart)
  | seq (a b : Stmt)
  | andThen (a b : Stmt)
  | orElse (a b : Stmt)
  | whileLoop (c b : Stmt)
deriving Repr

def isSpaceCh (c : Char) : Bool := c = ' ' || c = '\t'

def isDelimCh (c : Char) : Bool :=
  isSpaceCh c || c = '\n' || c = ';' || c = '|' || c = '&' || c = '<' || c = '>'

def isIdentCh (c : Char) : Bool := c.isAlphanum || c = '_'

def isLitCh (c : Char) : Bool :=
  !(isDelimCh c || c = '\'' || c = '"' || c = '$')

/-- Modelled from the spec: tokens of the arithmetic sub-language. -/
inductive ATok where
  | num (n : Nat)
  | id (s : String)
  | plus
  | minus
  | star
  | slash
  | percent
deriving Repr

def digitsToNat (ds : List Char) : Nat :=
  ds.foldl (fun acc c => acc * 10 + (c.toNat - '0'.toNat)) 0

/-- Base-10 integer parsing of a string (an optional leading minus sign
followed by decimal digits); `none` on invalid input. -/
def parseIntStr (s : String) : Option Int :=
  match s.data with
  | [] => none
  | '-' :: ds =>
    if ds ≠ [] ∧ ds.all Char.isDigit = true then some (-(Int.ofNat (digitsToNat ds))) else none
  | ds => if ds.all Char.isDigit = true then some (Int.ofNat (digitsToNat ds)) else none

/-- Modelled from the spec: lexer for the text inside `$((...))`. -/
def aTokenize : Nat → List Char → Except String (List ATok)
  | 0, _ => .error "arithmetic lexer limit reached"
  | _ + 1, [] => .ok []
  | fuel + 1, c :: rest =>
    if isSpaceCh c then aTokenize fuel rest
    else if c = '+' then (aTokenize fuel rest).map (ATok.plus :: ·)
    else if c = '-' then (aTokenize fuel rest).map (ATok.minus :: ·)
    else if c = '*' then (aTokenize fuel rest).map (ATok.star :: ·)
    else if c = '/' then (aTokenize fuel rest).map (ATok.slash :: ·)
    else if c = '%' then (aTokenize fuel rest).map (ATok.percent :: ·)
    else if c.isDigit then
      let ds := (c :: rest).takeWhile Char.isDigit
      let r2 := (c :: rest).dropWhile Char.isDigit
      (aTokenize fuel r2).map (ATok.num (digitsToNat ds) :: ·)
    else if isIdentCh c then
      let ns := (c :: rest).takeWhile isIdentCh
      let r2 := (c :: rest).dropWhile isIdentCh
      (aTokenize fuel r2).map (ATok.id (String.mk ns) :: ·)
    else .error "unsupported character in arithmetic expansion"

/-- Modelled from the spec: an atom of the arithmetic grammar — an integer
literal or a variable name. -/
def parseAAtom : List ATok → Except String (AExp × List ATok)
  | ATok.num n :: rest => .ok (AExp.num (Int.ofNat n), rest)
  | ATok.id s :: rest => .ok (AExp.var s, rest)
  | ATok.minus :: ATok.num n :: rest => .ok (AExp.num (-(Int.ofNat n)), rest)
  | _ => .error "expected an arithmetic operand"

/-- Modelled from the spec: left-associated chain of *, /, % after a first
operand. -/
def parseAProdRest : Nat → AExp → List ATok → Except String (AExp × List ATok)
  | 0, _, _ => .error "arithmetic grammar limit reached"
  | fuel + 1, a, ts =>
    match ts with
    | ATok.star :: rest =>
      match parseAAtom rest with
      | .error e => .error e
      | .ok (b, ts2) => parseAProdRest fuel (AExp.mul a b) ts2
    | ATok.slash :: rest =>
      match parseAAtom rest with
      | .error e => .error e
      | .ok (b, ts2) => parseAProdRest fuel (AExp.div a b) ts2
    | ATok.percent :: rest =>
      match parseAAtom rest with
      | .error e => .error e
      | .ok (b, ts2) => parseAProdRest fuel (AExp.mod a b) ts2
    | _ => .ok (a, ts)

def parseAProd (fuel : Nat) (ts : List ATok) : Except String (AExp × List ATok) :=
  match parseAAtom ts with
  | .error e => .error e
  | .ok (a, ts1) => parseAProdRest fuel a ts1

/-- Modelled from the spec: left-associated chain of +, - after a first
operand. -/
def parseASumRest : Nat → AExp → List ATok → Except String (AExp × List ATok)
  | 0, _, _ => .error "arithmetic grammar limit reached"
  | fuel + 1, a, ts =>
    match ts with
    | ATok.plus :: rest =>
      match parseAProd fuel rest with
      | .error e => .error e
      | .ok (b, ts2) => parseASumRest fuel (AExp.add a b) ts2
    | ATok.minus :: rest =>
      match parseAProd fuel rest with
      | .error e => .error e
      | .ok (b, ts2) => parseASumRest fuel (AExp.sub a b) ts2
    | _ => .ok (a, ts)

/-- Modelled from the spec: parser for the text inside `$((...))`. -/
def parseArith (s : List Char) : Except String AExp := do
  let ts ← aTokenize (s.length + 1) s
  let (a, ts1) ← parseAProd (ts.length + 1) ts
  let (e, ts2) ← parseASumRest (ts1.length + 1) a ts1
  match ts2 with
  | [] => .ok e
  | _ => .error "trailing tokens in arithmetic expansion"

/-- Modelled from the spec: scan up to the closing `))` of an arithmetic
expansion, returning the inner text and the remainder. -/
def spanToDoubleParen : Nat → List Char → Option (List Char × List Char)
  | 0, _ => none
  | _ + 1, [] => none
  | _ + 1, ')' :: ')' :: rest => some ([], rest)
  | fuel + 1, c :: rest => (spanToDoubleParen fuel rest).map (fun p => (c :: p.1, p.2))

/-- Modelled from the spec: read the parts of a double-quoted region up to
the closing quote; an unclosed double quote is a lexical error. -/
def readDquote : Nat → List Char → Except String (List WPart × List Char)
  | 0, _ => .error "lexer limit reached"
  | _ + 1, [] => .error "unclosed double quote"
  | fuel + 1, c :: rest =>
    if c = '"' then .ok ([], rest)
    else if c = '$' then
      let v := rest.takeWhile isIdentCh
      if v = [] then
        (readDquote fuel rest).map (fun p => (WPart.lit "$" :: p.1, p.2))
      else
        (readDquote fuel (rest.dropWhile isIdentCh)).map
          (fun p => (WPart.var (String.mk v) :: p.1, p.2))
    else
      let run := (c :: rest).takeWhile (fun d => !(d = '"' || d = '$'))
      let r2 := (c :: rest).dropWhile (fun d => !(d = '"' || d = '$'))
      (readDquote fuel r2).map (fun p => (WPart.lit (String.mk run) :: p.1, p.2))

/-- Modelled from the spec: read one word (a maximal run of quoted and
unquoted parts) from the script text. -/
def readWord : Nat → List Char → Except String (List WPart × List Char)
  | 0, _ => .error "lexer limit reached"
  | _ + 1, [] => .ok ([], [])
  | fuel + 1, c :: rest =>
    if isDelimCh c then .ok ([], c :: rest)
    else if c = '\'' then
      let content := rest.takeWhile (fun d => !(d = '\''))
      let r2 := rest.dropWhile (fun d => !(d = '\''))
      match r2 with
      | [] => .error "unclosed single quote"
      | _ :: r3 =>
        (readWord fuel r3).map (fun p => (WPart.lit (String.mk content) :: p.1, p.2))
    else if c = '"' then
      match readDquote (rest.length + 1) rest with
      | .error e => .error e
      | .ok (ps1, r3) => (readWord fuel r3).map (fun p => (ps1 ++ p.1, p.2))
    else if c = '$' then
      match rest with
      | '(' :: '(' :: r2 =>
        match spanToDoubleParen (r2.length + 1) r2 with
        | none => .error "unterminated arithmetic expansion"
        | some (inner, r3) =>
          match parseArith inner with
          | .error e => .error e
          | .ok e => (readWord fuel r3).map (fun p => (WPart.arith e :: p.1, p.2))
      | '{' :: r2 =>
        let v := r2.takeWhile (fun d => !(d = '}'))
        let r3 := r2.dropWhile (fun d => !(d = '}'))
        match r3 with
        | [] => .error "unclosed variable expansion"
        | _ :: r4 =>
          (readWord fuel r4).map (fun p => (WPart.var (String.mk v) :: p.1, p.2))
      | _ =>
        let v := rest.takeWhile isIdentCh
        if v = [] then (readWord fuel rest).map (fun p => (WPart.lit "$" :: p.1, p.2))
        else
          (readWord fuel (rest.dropWhile isIdentCh)).map
            (fun p => (WPart.var (String.mk v) :: p.1, p.2))
    else
      let run := (c :: rest).takeWhile isLitCh
      let r2 := (c :: rest).dropWhile isLitCh
      (readWord fuel r2).map (fun p => (WPart.lit (String.mk run) :: p.1, p.2))

/-- Modelled from the spec: read the here-document delimiter after `<<` —
either a quoted word (no expansion) or a bare word; a missing delimiter is
a lexical error. -/
def readHeredocDelim (s : List Char) : Except String (List Char × List Char) :=
  let s1 := s.dropWhile isSpaceCh
  match s1 with
  | '\'' :: r =>
    let d := r.takeWhile (fun c => !(c = '\''))
    let r2 := r.dropWhile (fun c => !(c = '\''))
    match r2 with
    | [] => .error "unclosed single quote"
    | _ :: r3 => .ok (d, r3)
  | _ =>
    let d := s1.takeWhile isLitCh
    if d = [] then .error "missing here-document delimiter"
    else .ok (d, s1.dropWhile isLitCh)

/-- Modelled from the spec: collect the here-document body — the lines
after the redirection's newline, up to the line equal to the delimiter;
reaching end of input before the delimiter line is a parse error
(unclosed here-document, spec section 4.1). -/
def readHeredocBody (delim : List Char) : Nat → List Char → Except String (List Char × List Char)
  | 0, _ => .error "lexer limit reached"
  | fuel + 1, s =>
    let line := s.takeWhile (fun c => !(c = '\n'))
    let rest := s.dropWhile (fun c => !(c = '\n'))
    if line = delim then
      match rest with
      | [] => .ok ([], [])
      | _ :: r2 => .ok ([], r2)
    else
      match rest with
      | [] => .error "unclosed here-document"
      | _ :: r2 =>
        match readHeredocBody delim fuel r2 with
        | .error e => .error e
        | .ok (body, r3) => .ok (line ++ '\n' :: body, r3)

/-- Modelled from the spec: read a whole `<< DELIM` here-document — the
delimiter word, then the body lines collected from the next newline
on. -/
def readHeredoc (fuel : Nat) (s : List Char) : Except String (String × List Char) :=
  match readHeredocDelim s with
  | .error e => .error e
  | .ok (d, r) =>
    let r1 := r.dropWhile isSpaceCh
    match r1 with
    | [] => .error "unclosed here-document"
    | '\n' :: r2 =>
      match readHeredocBody d fuel r2 with
      | .error e => .error e
      | .ok (body, r3) => .ok (String.mk body, r3)
    | _ => .error "unsupported here-document layout in modelled subset"

/-- Modelled from the spec: the lexer — script text to a token stream,
with unclosed quotes and here-documents reported as errors
(spec section 4.1). -/
def tokenize : Nat → List Char → Except String (List Tok)
  | 0, _ => .error "lexer limit reached"
  | fuel + 1, s =>
    let s1 := s.dropWhile isSpaceCh
    match s1 with
    | [] => .ok []
    | c :: rest =>
      if c = '\n' || c = ';' then (tokenize fuel rest).map (Tok.semi :: ·)
      else if c = '|' then
        match rest with
        | '|' :: r2 => (tokenize fuel r2).map (Tok.oror :: ·)
        | _ => .error "unsupported operator in modelled subset: pipe"
      else if c = '&' then
        match rest with
        | '&' :: r2 => (tokenize fuel r2).map (Tok.andand :: ·)
        | _ => .error "unsupported operator in modelled subset: background"
      else if c = '<' then
        match rest with
        | '<' :: r2 =>
          match readHeredoc (r2.length + 1) r2 with
          | .error e => .error e
          | .ok (body, r3) =>
            (tokenize fuel r3).map (fun ts => Tok.heredoc body :: Tok.semi :: ts)
        | _ => .error "unsupported operator in modelled subset: input redirection"
      else if c = '>' then .error "unsupported operator in modelled subset: output redirection"
      else
        match readWord (s1.length + 1) s1 with
        | .error e => .error e
        | .ok (ps, r2) => (tokenize fuel r2).map (Tok.word ps :: ·)

/-! ## Statement parser (spec section 4.1) -/

def isSemi : Tok → Bool
  | .semi => true
  | _ => false

def isKeywordTok (t : Tok) (k : String) : Bool :=
  match t with
  | .word [WPart.lit s] => s == k
  | _ => false

/-- Modelled from the spec: compound-statement keywords that are parse
errors when they appear unmatched at command position. -/
def reservedWords : List String :=
  ["do", "done", "then", "else", "elif", "fi", "if", "until", "for", "in", "case", "esac"]

def takeWordToks : List Tok → (List (List WPart) × List Tok)
  | .word ps :: rest =>
    let p := takeWordToks rest
    (ps :: p.1, p.2)
  | ts => ([], ts)

/-- Modelled from the spec: recognize `NAME=value` words as assignments. -/
def detectAssign (ps : List WPart) : Option (String × List WPart) :=
  match ps with
  | WPart.lit s :: rest =>
    let n := s.data.takeWhile (fun c => !(c = '='))
    if n ≠ [] ∧ n.all isIdentCh = true ∧ n.length < s.data.length then
      let v := (s.data.dropWhile (fun c => !(c = '='))).drop 1
      some (String.mk n, WPart.lit (String.mk v) :: rest)
    else none
  | _ => none

/-- Modelled from the spec: a simple command (with the here-document body,
when present, as its stdin) or a lone assignment. -/
def parseSimple (ts : List Tok) : Except String (Stmt × List Tok) :=
  match takeWordToks ts with
  | ([], _) => .error "expected a command"
  | ([w], rest) =>
    match detectAssign w with
    | some p => .ok (Stmt.assign p.1 p.2, rest)
    | none =>
      match rest with
      | Tok.heredoc body :: rest2 => .ok (Stmt.simple [w] (some body), rest2)
      | _ => .ok (Stmt.simple [w] none, rest)
  | (ws, rest) =>
    match rest with
    | Tok.heredoc body :: rest2 => .ok (Stmt.simple ws (some body), rest2)
    | _ => .ok (Stmt.simple ws none, rest)

def foldStmts : List Stmt → Stmt
  | [] => .nop
  | [s] => s
  | s :: ss => .seq s (foldStmts ss)

mutual

/-- Modelled from the spec: parse a `;`/newline-separated statement list,
optionally terminated by a closing keyword (`do`, `done`); reaching the
end of input before the closing keyword is a parse error (unmatched
compound statement). -/
def parseStmts : Nat → Option String → List Tok → Except String (List Stmt × List Tok)
  | 0, _, _ => .error "grammar limit reached"
  | fuel + 1, stop, ts =>
    let ts1 := ts.dropWhile isSemi
    match stop with
    | none =>
      match ts1 with
      | [] => .ok ([], [])
      | _ =>
        match parseAndOr fuel ts1 with
        | .error e => .error e
        | .ok (s, ts2) =>
          match parseStmts fuel none ts2 with
          | .error e => .error e
          | .ok (ss, ts3) => .ok (s :: ss, ts3)
    | some k =>
      match ts1 with
      | [] => .error ("expected keyword: " ++ k)
      | t :: rest =>
        if isKeywordTok t k then .ok ([], rest)
        else
          match parseAndOr fuel ts1 with
          | .error e => .error e
          | .ok (s, ts2) =>
            match parseStmts fuel stop ts2 with
            | .error e => .error e
            | .ok (ss, ts3) => .ok (s :: ss, ts3)

/-- Modelled from the spec: a pipeline-free command possibly chained with
`&&` / `||`. -/
def parseAndOr : Nat → List Tok → Except String (Stmt × List Tok)
  | 0, _ => .error "grammar limit reached"
  | fuel + 1, ts =>
    match parsePrimCmd fuel ts with
    | .error e => .error e
    | .ok (a, ts1) => parseAndOrRest fuel a ts1

def parseAndOrRest : Nat → Stmt → List Tok → Except String (Stmt × List Tok)
  | 0, _, _ => .error "grammar limit reached"
  | fuel + 1, a, ts =>
    match ts with
    | .oror :: rest =>
      match parsePrimCmd fuel rest with
      | .error e => .error e
      | .ok (b, ts1) => parseAndOrRest fuel (Stmt.orElse a b) ts1
    | .andand :: rest =>
      match parsePrimCmd fuel rest with
      | .error e => .error e
      | .ok (b, ts1) => parseAndOrRest fuel (Stmt.andThen a b) ts1
    | _ => .ok (a, ts)

/-- Modelled from the spec: a primary command — a `while ... do ... done`
loop, or a simple command / assignment; an unmatched compound-statement
keyword is a parse error. -/
def parsePrimCmd : Nat → List Tok → Except String (Stmt × List Tok)
  | 0, _ => .error "grammar limit reached"
  | fuel + 1, ts =>
    match ts with
    | .word [WPart.lit s] :: rest =>
      if s = "while" then
        match parseStmts fuel (some "do") rest with
        | .error e => .error e
        | .ok (cs, ts1) =>
          match parseStmts fuel (some "done") ts1 with
          | .error e => .error e
          | .ok (bs, ts2) => .ok (Stmt.whileLoop (foldStmts cs) (foldStmts bs), ts2)
      else if reservedWords.contains s then .error ("unmatched keyword: " ++ s)
      else parseSimple ts
    | .word _ :: _ => parseSimple ts
    | _ => .error "expected a command"

end

/-- Modelled from the spec: `parse(text) -> AST | ParseError`
(spec section 4.1). -/
def parseScript (script : String) : Except String Stmt :=
  match tokenize (script.data.length + 1) script.data with
  | .error e => .error e
  | .ok ts =>
    match parseStmts (4 * ts.length + 8) none ts with
    | .error e => .error e
    | .ok (ss, []) => .ok (foldStmts ss)
    | .ok (_, _ :: _) => .error "unexpected trailing tokens"

/-! ## Expansion engine (spec section 4.2) -/

/-- Modelled from the spec: variable lookup — unset variables expand to the
empty string. -/
def lookupVar (vars : List (String × String)) (x : String) : String :=
  match vars.lookup x with
  | some v => v
  | none => ""

/-- Modelled from the spec: assignment targets the scope, overwriting an
existing binding. -/
def setVar (vars : List (String × String)) (x v : String) : List (String × String) :=
  if (vars.lookup x).isSome then
    vars.map (fun p => if p.1 = x then (x, v) else p)
  else vars ++ [(x, v)]

/-- Modelled from the spec: integer arithmetic evaluation; a variable whose
value is not numeric evaluates to 0. -/
def evalA (vars : List (String × String)) : AExp → Int
  | .num n => n
  | .var x =>
    match parseIntStr (lookupVar vars x) with
    | some n => n
    | none => 0
  | .add a b => evalA vars a + evalA vars b
  | .sub a b => evalA vars a - evalA vars b
  | .mul a b => evalA vars a * evalA vars b
  | .div a b => Int.tdiv (evalA vars a) (evalA vars b)
  | .mod a b => Int.tmod (evalA vars a) (evalA vars b)

def expandPart (vars : List (String × String)) : WPart → String
  | .lit s => s
  | .var v => lookupVar vars v
  | .arith e => toString (evalA vars e)

/-- Modelled from the spec: expand a word against the current variable
scope (word splitting of unquoted expansions is outside the modelled
subset). -/
def expandWord (vars : List (String × String)) (ps : List WPart) : String :=
  ps.foldl (fun acc p => acc ++ expandPart vars p) ""

/-! ## Command Registry dispatch (spec section 4.4) -/

def fieldType (schema : Option (List SchemaField)) (k : String) : Option ParamType :=
  match schema with
  | none => none
  | some fs => (fs.find? (fun f => f.name == k)).map (fun f => f.ty)

def isBoolField (schema : Option (List SchemaField)) (k : String) : Bool :=
  fieldType schema k == some ParamType.boolean

/-- Modelled from the spec: coerce one `--key value` flag to its declared
schema type — string unchanged, integer parsed base-10 (invalid input is a
dispatch-time error), unknown flags passed through as strings. -/
def coerceFlag (schema : Option (List SchemaField)) (k v : String) : Except String Value :=
  match fieldType schema k with
  | some .integer =>
    match parseIntStr v with
    | some n => .ok (Value.int n)
    | none => .error ("invalid integer for --" ++ k ++ ": " ++ v)
  | some .boolean => .ok (Value.bool true)
  | some .string => .ok (Value.str v)
  | none => .ok (Value.str v)

/-- True when the token is a `--key` / `--flag` style flag. -/
def isFlagTok (s : String) : Bool :=
  match s.data with
  | '-' :: '-' :: _ => true
  | _ => false

/-- The flag name after the leading `--`. -/
def flagName (s : String) : String := String.mk (s.data.drop 2)

/-- Modelled from the spec: split argv tokens into positional arguments and
`--key value` / `--flag` pairs; boolean flags present without a value
coerce to true. -/
def splitArgs (schema : Option (List SchemaField)) : Nat → List String → Except String (List String × List (String × Value))
  | 0, _ => .error "argument scan limit reached"
  | _ + 1, [] => .ok ([], [])
  | fuel + 1, a :: rest =>
    if isFlagTok a then
      let k := flagName a
      if isBoolField schema k then
        (splitArgs schema fuel rest).map (fun p => (p.1, (k, Value.bool true) :: p.2))
      else
        match rest with
        | [] => .ok ([], [(k, Value.bool true)])
        | v :: rest2 =>
          if isFlagTok v then
            (splitArgs schema fuel rest).map (fun p => (p.1, (k, Value.bool true) :: p.2))
          else
            match coerceFlag schema k v with
            | .error e => .error e
            | .ok val =>
              (splitArgs schema fuel rest2).map (fun p => (p.1, (k, val) :: p.2))
    else
      (splitArgs schema fuel rest).map (fun p => (a :: p.1, p.2))

/-- Modelled from the spec: absent boolean schema fields default to
false. -/
def boolDefaults (schema : Option (List SchemaField)) (flags : List (String × Value)) : List (String × Value) :=
  match schema with
  | none => []
  | some fs =>
    (fs.filter (fun f => f.ty == ParamType.boolean && (flags.lookup f.name).isNone)).map
      (fun f => (f.name, Value.bool false))

/-- Modelled from the spec: `dispatch(name, argv, stdin)` for a registered
tool — parse and coerce the flags, invoke the callback, and translate a
callback failure into exit 1 with the message on stderr and empty
stdout. -/
def dispatchTool (t : ToolDef) (args : List String) (stdin : Option String) : String × String × Nat :=
  match splitArgs t.schema (args.length + 1) args with
  | .error e => ("", e, 1)
  | .ok (_, flags) =>
    match t.callback (flags ++ boolDefaults t.schema flags) stdin with
    | .error e => ("", e, 1)
    | .ok out => (out, "", 0)

/-- Modelled from the spec: dispatch of a simple command by name — builtin
implementations first (`true`, `false`, `echo`, `export` in the modelled
subset), then host-registered tools; an unknown name yields exit 127 and a
"command not found" message on stderr. Returns the updated variable scope
with stdout, stderr and the exit code. -/
def dispatchSimple (R : Registry) (vars : List (String × String)) (name : String) (args : List String) (stdin : Option String) :
    List (String × String) × String × String × Nat :=
  if name = "true" then (vars, "", "", 0)
  else if name = "false" then (vars, "", "", 1)
  else if name = "echo" then (vars, String.intercalate " " args ++ "\n", "", 0)
  else if name = "export" then
    (args.foldl (fun vs arg =>
      let n := arg.data.takeWhile (fun c => !(c = '='))
      let rest := arg.data.dropWhile (fun c => !(c = '='))
      match rest with
      | [] => vs
      | _ :: v => setVar vs (String.mk n) (String.mk v)) vars, "", "", 0)
  else
    match lookupTool R name with
    | some t =>
      let r := dispatchTool t args stdin
      (vars, r.1, r.2.1, r.2.2)
    | none => (vars, "", name ++ ": command not found\n", 127)

/-! ## Executor (spec section 4.3) -/

/-- Modelled from the spec: script status during AST traversal — either a
normal exit code, or a Resource Limiter abort carrying its message. -/
inductive Status where
  | normal (code : Nat)
  | aborted (msg : String)
deriving Repr

/-- Modelled from the spec: the running result of one AST node — state,
accumulated stdout and stderr, and the status. -/
structure Res where
  st : St
  out : String
  err : String
  status : Status
deriving Repr

def combineRes (a b : Res) : Res :=
  ⟨b.st, a.out ++ b.out, a.err ++ b.err, b.status⟩

/-- Modelled from the spec: run one simple command — the Resource Limiter
admits it, words are expanded, and the command is dispatched by name with
its here-document stdin, when present. -/
def runSimple (L : Limits) (R : Registry) (st : St) (ws : List (List WPart)) (stdin : Option String) : Res :=
  match admitCmd L st with
  | .error m => ⟨st, "", "", .aborted m⟩
  | .ok st1 =>
    match ws.map (expandWord st.vars) with
    | [] => ⟨st1, "", "", .normal 0⟩
    | name :: args =>
      let d := dispatchSimple R st1.vars name args stdin
      ⟨{ st1 with vars := d.1 }, d.2.1, d.2.2.1, .normal d.2.2.2⟩

/-- Modelled from the spec: the Executor's AST walk. `fuel` bounds the
recursion depth so the function is total; a `none` result means the fuel
ran out before the script finished (the monotonicity lemma below shows
results are stable once reached). A `;` list stops at a limiter abort,
`&&`/`||` run their right side according to the left exit code, and each
`while` iteration passes through `admit_iteration` before the body runs. -/
def execStmt (L : Limits) (R : Registry) : Nat → St → Stmt → Option Res
  | 0, _, _ => none
  | _ + 1, st, .nop => some ⟨st, "", "", .normal 0⟩
  | _ + 1, st, .simple ws stdin => some (runSimple L R st ws stdin)
  | _ + 1, st, .assign x w =>
    some ⟨{ st with vars := setVar st.vars x (expandWord st.vars w) }, "", "", .normal 0⟩
  | fuel + 1, st, .seq a b =>
    match execStmt L R fuel st a with
    | none => none
    | some ra =>
      match ra.status with
      | .aborted _ => some ra
      | .normal _ =>
        match execStmt L R fuel ra.st b with
        | none => none
        | some rb => some (combineRes ra rb)
  | fuel + 1, st, .andThen a b =>
    match execStmt L R fuel st a with
    | none => none
    | some ra =>
      match ra.status with
      | .aborted _ => some ra
      | .normal c =>
        if c = 0 then
          match execStmt L R fuel ra.st b with
          | none => none
          | some rb => some (combineRes ra rb)
        else some ra
  | fuel + 1, st, .orElse a b =>
    match execStmt L R fuel st a with
    | none => none
    | some ra =>
      match ra.status with
      | .aborted _ => some ra
      | .normal c =>
        if c = 0 then some ra
        else
          match execStmt L R fuel ra.st b with
          | none => none
          | some rb => some (combineRes ra rb)
  | fuel + 1, st, .whileLoop c b =>
    match execStmt L R fuel st c with
    | none => none
    | some rc =>
      match rc.status with
      | .aborted _ => some rc
      | .normal code =>
        if code = 0 then
          match admitIter L rc.st with
          | .error m => some ⟨rc.st, rc.out, rc.err, .aborted m⟩
          | .ok st2 =>
            match execStmt L R fuel st2 b with
            | none => none
            | some rb =>
              match rb.status with
              | .aborted _ => some (combineRes rc rb)
              | .normal _ =>
                match execStmt L R fuel rb.st (.whileLoop c b) with
                | none => none
                | some rw => some (combineRes rc (combineRes rb rw))
        else some ⟨rc.st, rc.out, rc.err, .normal 0⟩

/-! ## Session (spec sections 5-6) -/

/-- Modelled from the spec: the Session — limits, Command Registry, and the
mutable state that persists across `execute` calls. -/
structure Session where
  limits : Limits
  registry : Registry
  st : St

def freshSession (L : Limits) (R : Registry) : Session := ⟨L, R, initSt⟩

/-- Modelled from the spec: `reset()` atomically replaces VFS, scope and
counters with fresh empty instances. -/
def Session.reset (s : Session) : Session := { s with st := initSt }

/-- Modelled from the spec: `execute(script) -> ExecResult` — a parse error
short-circuits with exit 2 and the message in `error` (no commands run); a
limiter abort yields exit 1 with `error` set and partial output preserved;
otherwise the script's own exit code with `error` unset. `none` means the
evaluation fuel was exhausted. -/
def executeSync (fuel : Nat) (s : Session) (script : String) : Option (ExecResult × Session) :=
  match parseScript script with
  | .error e => some (⟨"", "", 2, some e⟩, s)
  | .ok ast =>
    match execStmt s.limits s.registry fuel s.st ast with
    | none => none
    | some r =>
      match r.status with
      | .normal c => some (⟨r.out, r.err, c, none⟩, { s with st := r.st })
      | .aborted m => some (⟨r.out, r.err, 1, some m⟩, { s with st := r.st })

/-- Modelled from the spec: the async entry point is semantics-identical to
the synchronous one, differing only in how the caller awaits it. -/
def executeAsync : Nat → Session → String → Option (ExecResult × Session) := executeSync

/-! ## Line splitting and Python string primitives

Helpers for the DeepAgents backend embedding: `splitNl` mirrors splitting
text on newline characters, and the `py*` functions mirror Python's
`str.count` / `str.replace` semantics (non-overlapping, left to right,
with Python's empty-pattern conventions) used by `BashKitBackend.edit`. -/

def splitNl : List Char → List (List Char)
  | [] => [[]]
  | c :: rest =>
    match splitNl rest with
    | [] => [[c]]
    | h :: t => if c = '\n' then [] :: h :: t else (c :: h) :: t

def joinNl : List (List Char) → List Char
  | [] => []
  | [l] => l
  | l :: ls => l ++ '\n' :: joinNl ls

def concatLines : List (List Char) → List Char
  | [] => []
  | l :: ls => l ++ '\n' :: concatLines ls

def pyCountAux (pat : List Char) : Nat → List Char → Nat
  | 0, _ => 0
  | _ + 1, [] => 0
  | fuel + 1, c :: rest =>
    if pat.isPrefixOf (c :: rest) then 1 + pyCountAux pat fuel (rest.drop (pat.length - 1))
    else pyCountAux pat fuel rest

/-- Python's `str.count`: non-overlapping occurrences, and `len + 1` for
the empty pattern. -/
def pyCount (hay pat : String) : Nat :=
  if pat.data = [] then hay.data.length + 1
  else pyCountAux pat.data (hay.data.length + 1) hay.data

def pyReplaceFirstAux (pat new : List Char) : Nat → List Char → List Char
  | 0, l => l
  | _ + 1, [] => []
  | fuel + 1, c :: rest =>
    if pat.isPrefixOf (c :: rest) then new ++ rest.drop (pat.length - 1)
    else c :: pyReplaceFirstAux pat new fuel rest

/-- Python's `str.replace(old, new, 1)`: replace the leftmost occurrence. -/
def pyReplaceFirst (s pat new : String) : String :=
  if pat.data = [] then String.mk (new.data ++ s.data)
  else String.mk (pyReplaceFirstAux pat.data new.data (s.data.length + 1) s.data)

def pyReplaceAllAux (pat new : List Char) : Nat → List Char → List Char
  | 0, l => l
  | _ + 1, [] => []
  | fuel + 1, c :: rest =>
    if pat.isPrefixOf (c :: rest) then new ++ pyReplaceAllAux pat new fuel (rest.drop (pat.length - 1))
    else c :: pyReplaceAllAux pat new fuel rest

def pyEmptyPatAux (new : List Char) : List Char → List Char
  | [] => []
  | c :: rest => c :: (new ++ pyEmptyPatAux new rest)

/-- Python's `str.replace(old, new)`: all non-overlapping occurrences;
for the empty pattern the replacement is inserted around every
character. -/
def pyReplaceAll (s pat new : String) : String :=
  if pat.data = [] then String.mk (new.data ++ pyEmptyPatAux new.data s.data)
  else String.mk (pyReplaceAllAux pat.data new.data (s.data.length + 1) s.data)

/-! ## DeepAgents backend (bashkit/deepagents.py)

`BashKitBackend` drives the native interpreter through shell commands:
`write` builds a `cat > path << 'BASHKIT_EOF'` here-document and `read`,
`edit` and `download_files` run `cat path`.  The interpreter-side meaning
of those two command shapes (here-document collection and `cat` against
the VFS) is not in the source tree and is modelled from the spec
(sections 4.3, 4.5); the Python control flow around them is translated
from `bashkit/deepagents.py`. -/

abbrev Vfs := List (String × String)

def lookupFile (vfs : Vfs) (p : String) : Option String := vfs.lookup p

/-- Modelled from the spec: a VFS write creates the file or truncates an
existing one; `resolve` returns the most recent write. -/
def insertFile (vfs : Vfs) (p c : String) : Vfs := (p, c) :: vfs

/-- The here-document delimiter used by `BashKitBackend.write`. -/
def heredocDelim : List Char := "BASHKIT_EOF".data

/-- Modelled from the spec: the body collected for the quoted here-document
of `cat > path << 'BASHKIT_EOF'\n{content}\nBASHKIT_EOF` — the lines after
the first newline, up to the line equal to the delimiter, each with its
newline; a missing terminator line would be a parse error (`none`). -/
def heredocBody (content : String) : Option (List Char) :=
  let ls := splitNl (content.data ++ '\n' :: heredocDelim)
  if ls.contains heredocDelim then
    some (concatLines (ls.takeWhile (fun l => !(l == heredocDelim))))
  else none

structure WriteResult where
  success : Bool
  error : Option String
deriving Repr, DecidableEq

structure EditResult where
  success : Bool
  error : Option String
deriving Repr, DecidableEq

structure FileDownloadResponse where
  path : String
  content : Option String
  error : Option String
deriving Repr, DecidableEq

structure ExecuteResponse where
  output : String
  exit_code : Nat
  signal : Option Nat
  truncated : Bool
deriving Repr, DecidableEq

/-- Modelled from the spec: the result of executing `cat path` — the file's
content on stdout, or exit 1 with a message on stderr when the path does
not resolve (a VFS error is the builtin's own failure, not an
interpreter-level one). -/
def catFile (vfs : Vfs) (p : String) : ExecResult :=
  match lookupFile vfs p with
  | some c => ⟨c, "", 0, none⟩
  | none => ⟨"", "cat: " ++ p ++ ": No such file or directory\n", 1, none⟩

/-- From `bashkit/deepagents.py` (`BashKitBackend.write`): build the
quoted here-document command embedding `content` verbatim (the computed
`escaped` variable in the source is never used) and run it; the write
succeeds unless the command fails. -/
def BashKitBackend.write (vfs : Vfs) (path content : String) : WriteResult × Vfs :=
  match heredocBody content with
  | some body => (⟨true, none⟩, insertFile vfs path (String.mk body))
  | none => (⟨false, some "unterminated here-document"⟩, vfs)

/-- From `bashkit/deepagents.py` (`BashKitBackend.download_files`): `cat`
each path; on success the stdout bytes are returned, otherwise the error
is the command's stderr, or "File not found" when stderr is empty. -/
def BashKitBackend.downloadFiles (vfs : Vfs) (paths : List String) : List FileDownloadResponse :=
  paths.map (fun p =>
    let r := catFile vfs p
    if r.exit_code = 0 then ⟨p, some r.stdout, none⟩
    else ⟨p, none, some (if r.stderr = "" then "File not found" else r.stderr)⟩)

/-- From `bashkit/deepagents.py` (`BashKitBackend.edit`): read the file via
`cat`, count occurrences of `old`, fail without writing when there are
none (or several and `replace_all` is false), otherwise replace and write
back through `BashKitBackend.write`. -/
def BashKitBackend.edit (vfs : Vfs) (path old new : String) (replace_all : Bool) : EditResult × Vfs :=
  let r := catFile vfs path
  if r.exit_code ≠ 0 then (⟨false, some ("File not found: " ++ path)⟩, vfs)
  else
    let content := r.stdout
    let count := pyCount content old
    if count = 0 then (⟨false, some "old_string not found in file"⟩, vfs)
    else if 1 < count ∧ replace_all = false then
      (⟨false, some ("old_string found " ++ toString count ++
        " times. Use replace_all=True or provide more context.")⟩, vfs)
    else
      let newContent :=
        if replace_all then pyReplaceAll content old new
        else pyReplaceFirst content old new
      let w := BashKitBackend.write vfs path newContent
      if w.1.success then (⟨true, none⟩, w.2) else (⟨false, w.1.error⟩, vfs)

/-- From `bashkit/deepagents.py` (`BashKitBackend.execute`): run the
command via `execute_sync` and combine stdout with stderr (appended only
when stderr is non-empty) into an `ExecuteResponse`. -/
def BashKitBackend.execute (fuel : Nat) (s : Session) (command : String) : Option (ExecuteResponse × Session) :=
  match executeSync fuel s command with
  | none => none
  | some (r, s2) =>
    some (⟨if r.stderr = "" then r.stdout else r.stdout ++ r.stderr, r.exit_code, none, false⟩, s2)

/-- From `bashkit/deepagents.py` (`BashKitBackend.aexecute`): the async
version returns exactly `self.execute(command)`. -/
def BashKitBackend.aexecute (fuel : Nat) (s : Session) (command : String) : Option (ExecuteResponse × Session) :=
  BashKitBackend.execute fuel s command

/-! ## LangChain wrapper (bashkit/langchain.py, python/bashkit_py/langchain.py) -/

/-- Python truthiness of an `Optional[str]`: `None` and the empty string
are falsy. -/
def pyTruthyStr : Option String → Bool
  | none => false
  | some s => !(s == "")

/-- From `bashkit/langchain.py` (`BashkitTool._run`, identical in
`ScriptedToolLangChain._run` and `bashkit_py/langchain.py`
`BashKitTool._run`): raise a `ToolException` when `result.error` is
truthy, otherwise return stdout, appending `\nSTDERR: ...` when stderr is
non-empty and `\n[Exit code: N]` when the exit code is nonzero. -/
def toolRun (r : ExecResult) : Except String String :=
  if pyTruthyStr r.error then .error ("Execution error: " ++ r.error.getD "")
  else
    let o1 := r.stdout
    let o2 := if r.stderr = "" then o1 else o1 ++ "\nSTDERR: " ++ r.stderr
    let o3 := if r.exit_code ≠ 0 then o2 ++ "\n[Exit code: " ++ toString r.exit_code ++ "]" else o2
    .ok o3

/-- From `bashkit/langchain.py` (`BashkitTool._arun`): textually the same
translation applied to the awaited result. -/
def toolArun (r : ExecResult) : Except String String :=
  if pyTruthyStr r.error then .error ("Execution error: " ++ r.error.getD "")
  else
    let o1 := r.stdout
    let o2 := if r.stderr = "" then o1 else o1 ++ "\nSTDERR: " ++ r.stderr
    let o3 := if r.exit_code ≠ 0 then o2 ++ "\n[Exit code: " ++ toString r.exit_code ++ "]" else o2
    .ok o3

/-! ## Concrete sessions and scripts used by the claims -/

/-- The unbounded-loop script of the spec's resource-limiter property. -/
def loopScript : String := "while true; do i=$((i+1)); done"

/-- The ten-echo script of `test_max_commands_limits_execution`. -/
def echoScript : String :=
  "echo 1; echo 2; echo 3; echo 4; echo 5; echo 6; echo 7; echo 8; echo 9; echo 10"

def loopSession : Session := freshSession ⟨none, some 10⟩ []

def echoSession : Session := freshSession ⟨some 5, none⟩ []

/-- A registered tool whose callback always fails with "service down"
(`test_scripted_tool_callback_error`). -/
def failTool : ToolDef := ⟨"failing_cmd", "Always fails", none, fun _ _ => .error "service down"⟩

def failSession : Session := freshSession ⟨none, none⟩ [failTool]

def showVal : Value → String
  | .str s => "str " ++ s
  | .int n => "int " ++ toString n
  | .bool b => "bool " ++ (if b then "true" else "false")

/-- A registered tool whose callback renders every received parameter with
its runtime type, exposing the dispatch-time coercions. -/
def probeTool (schema : Option (List SchemaField)) : ToolDef :=
  ⟨"probe", "Show params", schema, fun p _ =>
    .ok (String.intercalate ";" (p.map (fun kv => kv.1 ++ "=" ++ showVal kv.2)) ++ "\n")⟩

/-- The `greet` tool of the spec's registered-tool round trip. -/
def greetTool : ToolDef :=
  ⟨"greet", "Greet user", some [⟨"name", ParamType.string⟩], fun p _ =>
    .ok ("hello " ++ (match p.lookup "name" with | some (Value.str s) => s | _ => "") ++ "\n")⟩

def greetSession : Session := freshSession ⟨none, none⟩ [greetTool]

def intProbeSession : Session := freshSession ⟨none, none⟩ [probeTool (some [⟨"id", ParamType.integer⟩])]

def boolProbeSession : Session := freshSession ⟨none, none⟩ [probeTool (some [⟨"verbose", ParamType.boolean⟩])]

def plainSession : Session := freshSession ⟨none, none⟩ []

/-- One unfolding step of `execStmt` with the recursive calls abstracted as
`rec`; used to reason about fuel monotonicity without unfolding nested
recursion. -/
def execStmtStep (L : Limits) (R : Registry) (rec : St → Stmt → Option Res) (st : St) : Stmt → Option Res
  | .nop => some ⟨st, "", "", .normal 0⟩
  | .simple ws stdin => some (runSimple L R st ws stdin)
  | .assign x w =>
    some ⟨{ st with vars := setVar st.vars x (expandWord st.vars w) }, "", "", .normal 0⟩
  | .seq a b =>
    match rec st a with
    | none => none
    | some ra =>
      match ra.status with
      | .aborted _ => some ra
      | .normal _ =>
        match rec ra.st b with
        | none => none
        | some rb => some (combineRes ra rb)
  | .andThen a b =>
    match rec st a with
    | none => none
    | some ra =>
      match ra.status with
      | .aborted _ => some ra
      | .normal c =>
        if c = 0 then
          match rec ra.st b with
          | none => none
          | some rb => some (combineRes ra rb)
        else some ra
  | .orElse a b =>
    match rec st a with
    | none => none
    | some ra =>
      match ra.status with
      | .aborted _ => some ra
      | .normal c =>
        if c = 0 then some ra
        else
          match rec ra.st b with
          | none => none
          | some rb => some (combineRes ra rb)
  | .whileLoop c b =>
    match rec st c with
    | none => none
    | some rc =>
      match rc.status with
      | .aborted _ => some rc
      | .normal code =>
        if code = 0 then
          match admitIter L rc.st with
          | .error m => some ⟨rc.st, rc.out, rc.err, .aborted m⟩
          | .ok st2 =>
            match rec st2 b with
            | none => none
            | some rb =>
              match rb.status with
              | .aborted _ => some (combineRes rc rb)
              | .normal _ =>
                match rec rb.st (.whileLoop c b) with
                | none => none
                | some rw => some (combineRes rc (combineRes rb rw))
        else some ⟨rc.st, rc.out, rc.err, .normal 0⟩

/-! ## Fuel monotonicity: a result reached with some fuel is final -/

theorem execStmt_succ (L : Limits) (R : Registry) (fuel : Nat) (st : St) (s : Stmt) :
    execStmt L R (fuel + 1) st s = execStmtStep L R (execStmt L R fuel) st s := by
  cases s <;> rfl

theorem execStmtStep_mono (L : Limits) (R : Registry) (f g : St → Stmt → Option Res)
    (hfg : ∀ st s r, f st s = some r → g st s = some r) :
    ∀ st s r, execStmtStep L R f st s = some r → execStmtStep L R g st s = some r := by
  intro st s r h
  cases s with
  | nop => exact h
  | simple ws stdin => exact h
  | assign x w => exact h
  | seq a b =>
    simp only [execStmtStep] at h ⊢
    cases ha : f st a with
    | none => simp [ha] at h
    | some ra =>
      simp only [ha] at h
      simp only [hfg st a ra ha]
      cases hst : ra.status with
      | aborted m => simp only [hst] at h ⊢; exact h
      | normal c =>
        simp only [hst] at h ⊢
        cases hb : f ra.st b with
        | none => simp [hb] at h
        | some rb => simp only [hb] at h; simp only [hfg _ _ _ hb]; exact h
  | andThen a b =>
    simp only [execStmtStep] at h ⊢
    cases ha : f st a with
    | none => simp [ha] at h
    | some ra =>
      simp only [ha] at h
      simp only [hfg st a ra ha]
      cases hst : ra.status with
      | aborted m => simp only [hst] at h ⊢; exact h
      | normal c =>
        simp only [hst] at h ⊢
        by_cases hc : c = 0
        · simp only [if_pos hc] at h ⊢
          cases hb : f ra.st b with
          | none => simp [hb] at h
          | some rb => simp only [hb] at h; simp only [hfg _ _ _ hb]; exact h
        · simp only [if_neg hc] at h ⊢; exact h
  | orElse a b =>
    simp only [execStmtStep] at h ⊢
    cases ha : f st a with
    | none => simp [ha] at h
    | some ra =>
      simp only [ha] at h
      simp only [hfg st a ra ha]
      cases hst : ra.status with
      | aborted m => simp only [hst] at h ⊢; exact h
      | normal c =>
        simp only [hst] at h ⊢
        by_cases hc : c = 0
        · simp only [if_pos hc] at h ⊢; exact h
        · simp only [if_neg hc] at h ⊢
          cases hb : f ra.st b with
          | none => simp [hb] at h
          | some rb => simp only [hb] at h; simp only [hfg _ _ _ hb]; exact h
  | whileLoop c b =>
    simp only [execStmtStep] at h ⊢
    cases hc1 : f st c with
    | none => simp [hc1] at h
    | some rc =>
      simp only [hc1] at h
      simp only [hfg st c rc hc1]
      cases hst : rc.status with
      | aborted m => simp only [hst] at h ⊢; exact h
      | normal code =>
        simp only [hst] at h ⊢
        by_cases hz : code = 0
        · simp only [if_pos hz] at h ⊢
          cases hadm : admitIter L rc.st with
          | error m => simp only [hadm] at h ⊢; exact h
          | ok st2 =>
            simp only [hadm] at h ⊢
            cases hb : f st2 b with
            | none => simp [hb] at h
            | some rb =>
              simp only [hb] at h
              simp only [hfg _ _ _ hb]
              cases hbs : rb.status with
              | aborted m2 => simp only [hbs] at h ⊢; exact h
              | normal c2 =>
                simp only [hbs] at h ⊢
                cases hw : f rb.st (Stmt.whileLoop c b) with
                | none => simp [hw] at h
                | some rw2 => simp only [hw] at h; simp only [hfg _ _ _ hw]; exact h
        · simp only [if_neg hz] at h ⊢; exact h

theorem execStmt_mono (L : Limits) (R : Registry) :
    ∀ fuel st s r, execStmt L R fuel st s = some r → execStmt L R (fuel + 1) st s = some r := by
  intro fuel
  induction fuel with
  | zero => intro st s r h; simp [execStmt] at h
  | succ n ih =>
    intro st s r h
    rw [execStmt_succ] at h ⊢
    exact execStmtStep_mono L R _ _ ih st s r h

theorem execStmt_le (L : Limits) (R : Registry) {n m : Nat} {st : St} {s : Stmt} {r : Res}
    (hnm : n ≤ m) (h : execStmt L R n st s = some r) : execStmt L R m st s = some r := by
  obtain ⟨k, rfl⟩ := Nat.exists_eq_add_of_le hnm
  clear hnm
  induction k with
  | zero => exact h
  | succ k ih => exact execStmt_mono L R _ _ _ _ ih

theorem executeSync_le {n m : Nat} {s : Session} {script : String} {p : ExecResult × Session}
    (hnm : n ≤ m) (h : executeSync n s script = some p) : executeSync m s script = some p := by
  unfold executeSync at h ⊢
  cases hp : parseScript script with
  | error e => simp only [hp] at h; simp only [hp]; exact h
  | ok ast =>
    simp only [hp] at h ⊢
    cases he : execStmt s.limits s.registry n s.st ast with
    | none => simp [he] at h
    | some r =>
      simp only [he] at h
      simp only [execStmt_le s.limits s.registry hnm he]
      exact h

/-! ## Line-splitting lemmas for the here-document model -/

theorem splitNl_ne_nil : ∀ l : List Char, splitNl l ≠ []
  | [] => by simp [splitNl]
  | c :: rest => by
    simp only [splitNl]
    cases h : splitNl rest with
    | nil => simp
    | cons hd tl =>
      by_cases hc : c = '\n' <;> simp [hc]

theorem joinNl_splitNl : ∀ l : List Char, joinNl (splitNl l) = l
  | [] => by simp [splitNl, joinNl]
  | c :: rest => by
    have ih := joinNl_splitNl rest
    simp only [splitNl]
    cases h : splitNl rest with
    | nil => exact absurd h (splitNl_ne_nil rest)
    | cons hd tl =>
      rw [h] at ih
      by_cases hc : c = '\n'
      · subst hc
        simp only [if_pos rfl]
        cases tl with
        | nil => simp [joinNl] at ih ⊢; exact ih
        | cons t ts => simp [joinNl] at ih ⊢; exact ih
      · simp only [if_neg hc]
        cases tl with
        | nil => simp [joinNl] at ih ⊢; exact ih
        | cons t ts => simp [joinNl] at ih ⊢; exact ih

theorem splitNl_append_newline : ∀ a b : List Char, splitNl (a ++ '\n' :: b) = splitNl a ++ splitNl b
  | [], b => by
    simp only [List.nil_append, splitNl]
    cases h : splitNl b with
    | nil => exact absurd h (splitNl_ne_nil b)
    | cons hd tl => simp
  | c :: a, b => by
    have ih := splitNl_append_newline a b
    simp only [List.cons_append, splitNl, List.append_eq]
    rw [ih]
    cases h : splitNl a with
    | nil => exact absurd h (splitNl_ne_nil a)
    | cons hd tl =>
      by_cases hc : c = '\n' <;> simp [hc]

theorem concatLines_eq : ∀ ls : List (List Char), ls ≠ [] → concatLines ls = joinNl ls ++ ['\n']
  | [], h => absurd rfl h
  | [l], _ => by simp [concatLines, joinNl]
  | l :: m :: ls, _ => by
    have ih := concatLines_eq (m :: ls) (by simp)
    simp only [concatLines, joinNl] at ih ⊢
    rw [ih]
    simp

theorem takeWhile_append_stop (p : List Char → Bool) :
    ∀ (xs : List (List Char)) (y : List Char) (ys : List (List Char)),
      (∀ x ∈ xs, p x = true) → p y = false → (xs ++ y :: ys).takeWhile p = xs
  | [], y, ys, _, hy => by simp [List.takeWhile, hy]
  | x :: xs, y, ys, hall, hy => by
    have hx : p x = true := hall x (by simp)
    have ih := takeWhile_append_stop p xs y ys (fun z hz => hall z (by simp [hz])) hy
    simp [List.takeWhile, hx, ih]

theorem heredocBody_of_no_delim (content : String)
    (h : heredocDelim ∉ splitNl content.data) :
    heredocBody content = some (content.data ++ ['\n']) := by
  unfold heredocBody
  have hsplit : splitNl (content.data ++ '\n' :: heredocDelim)
      = splitNl content.data ++ [heredocDelim] := by
    rw [splitNl_append_newline]
    have : splitNl heredocDelim = [heredocDelim] := by decide
    rw [this]
  rw [hsplit]
  have hmem : (splitNl content.data ++ [heredocDelim]).contains heredocDelim = true := by
    simp [List.elem_iff]
  rw [if_pos hmem]
  have htake : (splitNl content.data ++ [heredocDelim]).takeWhile
      (fun l => !(l == heredocDelim)) = splitNl content.data := by
    refine takeWhile_append_stop _ (splitNl content.data) heredocDelim [] ?_ (by simp)
    intro x hx
    simp only [Bool.not_eq_true']
    exact beq_false_of_ne (fun hxy => h (hxy ▸ hx))
  rw [htake]
  rw [concatLines_eq (splitNl content.data) (splitNl_ne_nil content.data)]
  rw [joinNl_splitNl]

/-! ## Claims -/

/-- C1: a Session with a finite ceiling terminates a runaway script — with
`max_loop_iterations = 10` the unbounded `while true; do i=$((i+1)); done`
reaches a final result (stable under any additional fuel) whose exit code
is nonzero or whose `error` is set; with `max_commands = 5` the ten-`echo`
script aborts the same way while preserving the stdout produced before the
abort. -/
theorem c1_resource_limits_terminate :
    (∃ r1 s1, (∀ g, 64 ≤ g → executeSync g loopSession loopScript = some (r1, s1)) ∧
      (r1.exit_code ≠ 0 ∨ r1.error ≠ none)) ∧
    (∃ r2 s2, (∀ g, 64 ≤ g → executeSync g echoSession echoScript = some (r2, s2)) ∧
      r2.stdout = "1\n2\n3\n4\n5\n" ∧ (r2.exit_code ≠ 0 ∨ r2.error ≠ none)) := by
  constructor
  · exact ⟨⟨"", "", 1, some "max_loop_iterations limit exceeded"⟩, _,
      fun g hg => executeSync_le hg rfl, Or.inl (by decide)⟩
  · exact ⟨⟨"1\n2\n3\n4\n5\n", "", 1, some "max_commands limit exceeded"⟩, _,
      fun g hg => executeSync_le hg rfl, rfl, Or.inl (by decide)⟩

/-- Witness for C1 at the concrete fuel 64. -/
theorem c1_resource_limits_terminate_witness :
    ∃ r1 s1, executeSync 64 loopSession loopScript = some (r1, s1) ∧
      (r1.exit_code ≠ 0 ∨ r1.error ≠ none) := by
  obtain ⟨⟨r1, s1, hall, hne⟩, -⟩ := c1_resource_limits_terminate
  exact ⟨r1, s1, hall 64 (Nat.le_refl 64), hne⟩

/-- C2: a registered tool whose callback fails is caught at the dispatch
boundary and converted to exit 1 with the failure message on stderr and
empty stdout (for every tool, argument list and stdin), never an
interpreter-level error; concretely `failing_cmd` yields exit 1 with
"service down" on stderr and `error` unset, and
`failing_cmd || echo fallback` yields exit 0 with stdout "fallback\n". -/
theorem c2_callback_failure_converted :
    (∀ (t : ToolDef) (args : List String) (stdin : Option String) (pos : List String)
      (flags : List (String × Value)) (msg : String),
      splitArgs t.schema (args.length + 1) args = .ok (pos, flags) →
      t.callback (flags ++ boolDefaults t.schema flags) stdin = .error msg →
      dispatchTool t args stdin = ("", msg, 1)) ∧
    (∃ s1, executeSync 8 failSession "failing_cmd" =
      some (⟨"", "service down", 1, none⟩, s1)) ∧
    (∃ s2, executeSync 8 failSession "failing_cmd || echo fallback" =
      some (⟨"fallback\n", "service down", 0, none⟩, s2)) := by
  refine ⟨?_, ⟨_, rfl⟩, ⟨_, rfl⟩⟩
  intro t args stdin pos flags msg hsplit hcb
  unfold dispatchTool
  simp only [hsplit, hcb]

/-- Witness for C2 at the concrete failing tool. -/
theorem c2_callback_failure_converted_witness :
    dispatchTool failTool [] none = ("", "service down", 1) :=
  c2_callback_failure_converted.1 failTool [] none [] [] "service down" rfl rfl

/-- C3: a simple command whose name is neither a builtin of the modelled
subset nor a registered command dispatches to exit 127 with a
"command not found" message on stderr, and concretely executing
`nonexistent_xyz_cmd_12345` returns exit 127 with `error` left unset. -/
theorem c3_unknown_command_127 :
    (∀ (R : Registry) (vars : List (String × String)) (name : String) (args : List String)
      (stdin : Option String),
      name ≠ "true" → name ≠ "false" → name ≠ "echo" → name ≠ "export" →
      lookupTool R name = none →
      dispatchSimple R vars name args stdin = (vars, "", name ++ ": command not found\n", 127)) ∧
    (∃ s2, executeSync 8 plainSession "nonexistent_xyz_cmd_12345" =
      some (⟨"", "nonexistent_xyz_cmd_12345: command not found\n", 127, none⟩, s2)) := by
  refine ⟨?_, ⟨_, rfl⟩⟩
  intro R vars name args stdin h1 h2 h3 h4 hlook
  simp [dispatchSimple, h1, h2, h3, h4, hlook]

/-- Witness for C3 at a concrete unknown name. -/
theorem c3_unknown_command_127_witness :
    dispatchSimple [] [] "nope_xyz" [] none = ([], "", "nope_xyz: command not found\n", 127) :=
  c3_unknown_command_127.1 [] [] "nope_xyz" [] none
    (by decide) (by decide) (by decide) (by decide) rfl

/-- C4: every script the parser rejects short-circuits execution — the
result carries a nonzero exit code (2) and the parse message in `error`,
with empty stdout and stderr and the Session state unchanged (no command
ran); the three malformed-syntax categories of the claim are all parse
errors: an unclosed double quote, an unclosed here-document, and an
unmatched compound-statement keyword. -/
theorem c4_parse_error_short_circuits :
    (∀ (fuel : Nat) (s : Session) (script e : String),
      parseScript script = .error e →
      executeSync fuel s script = some (⟨"", "", 2, some e⟩, s)) ∧
    parseScript "echo \"unclosed" = .error "unclosed double quote" ∧
    parseScript "cat << EOF\nhello" = .error "unclosed here-document" ∧
    parseScript "while true; do echo x" = .error "expected keyword: done" := by
  refine ⟨?_, rfl, rfl, rfl⟩
  intro fuel s script e h
  unfold executeSync
  rw [h]

/-- Witness for C4 at the unclosed-quote and unclosed-here-document
scripts. -/
theorem c4_parse_error_short_circuits_witness :
    executeSync 4 plainSession "echo \"unclosed" =
      some (⟨"", "", 2, some "unclosed double quote"⟩, plainSession) ∧
    executeSync 4 plainSession "cat << EOF\nhello" =
      some (⟨"", "", 2, some "unclosed here-document"⟩, plainSession) :=
  ⟨c4_parse_error_short_circuits.1 4 plainSession "echo \"unclosed" "unclosed double quote" rfl,
   c4_parse_error_short_circuits.1 4 plainSession "cat << EOF\nhello" "unclosed here-document" rfl⟩

/-- C5: variable state persists across `execute` calls within one Session
and `reset` clears it — after `export FOO=bar`, `echo $FOO` prints
"bar\n"; after `reset()` it prints "\n". -/
theorem c5_state_persists_and_reset_clears :
    ∃ r1 s1, executeSync 8 plainSession "export FOO=bar" = some (r1, s1) ∧
      (∃ s2, executeSync 8 s1 "echo $FOO" = some (⟨"bar\n", "", 0, none⟩, s2)) ∧
      (∃ s3, executeSync 8 (Session.reset s1) "echo $FOO" = some (⟨"\n", "", 0, none⟩, s3)) := by
  exact ⟨_, _, rfl, ⟨_, rfl⟩, ⟨_, rfl⟩⟩

/-- C6: dispatch coerces flags to the declared schema types before the
callback runs — `greet --name Alice` reaches the callback as a string and
prints "hello Alice\n"; `probe --id 42` arrives as the integer 42;
`probe --verbose` (boolean, no value) arrives as true; and with the flag
absent the boolean field defaults to false. -/
theorem c6_schema_coercion :
    (∃ s1, executeSync 8 greetSession "greet --name Alice" =
      some (⟨"hello Alice\n", "", 0, none⟩, s1)) ∧
    (∃ s2, executeSync 8 intProbeSession "probe --id 42" =
      some (⟨"id=int 42\n", "", 0, none⟩, s2)) ∧
    (∃ s3, executeSync 8 boolProbeSession "probe --verbose" =
      some (⟨"verbose=bool true\n", "", 0, none⟩, s3)) ∧
    (∃ s4, executeSync 8 boolProbeSession "probe" =
      some (⟨"verbose=bool false\n", "", 0, none⟩, s4)) := by
  exact ⟨⟨_, rfl⟩, ⟨_, rfl⟩, ⟨_, rfl⟩, ⟨_, rfl⟩⟩

/-- C7: the async entry points are semantics-identical to the synchronous
ones — the modelled Session-level `executeAsync` equals `executeSync` on
every input, `BashKitBackend.aexecute` returns exactly
`BashKitBackend.execute`, and the backend response is determined by the
synchronous `ExecResult` (stdout with stderr appended when non-empty, same
exit code). -/
theorem c7_async_equals_sync :
    (∀ (fuel : Nat) (s : Session) (script : String),
      executeAsync fuel s script = executeSync fuel s script) ∧
    (∀ (fuel : Nat) (s : Session) (command : String),
      BashKitBackend.aexecute fuel s command = BashKitBackend.execute fuel s command) ∧
    (∀ (fuel : Nat) (s : Session) (command : String) (r : ExecResult) (s2 : Session),
      executeSync fuel s command = some (r, s2) →
      BashKitBackend.execute fuel s command =
        some (⟨if r.stderr = "" then r.stdout else r.stdout ++ r.stderr,
          r.exit_code, none, false⟩, s2)) := by
  refine ⟨fun _ _ _ => rfl, fun _ _ _ => rfl, ?_⟩
  intro fuel s command r s2 h
  unfold BashKitBackend.execute
  rw [h]

/-- Witness for C7 at a concrete command. -/
theorem c7_async_equals_sync_witness :
    BashKitBackend.execute 8 plainSession "echo hi" =
      some (⟨"hi\n", 0, none, false⟩, ⟨⟨none, none⟩, [], ⟨[], [], 1, 0⟩⟩) :=
  c7_async_equals_sync.2.2 8 plainSession "echo hi" ⟨"hi\n", "", 0, none⟩
    ⟨⟨none, none⟩, [], ⟨[], [], 1, 0⟩⟩ rfl

/-- The here-document built by `BashKitBackend.write` is always terminated:
the command itself appends the delimiter line. -/
theorem heredocBody_isSome (c : String) : ∃ body, heredocBody c = some body := by
  unfold heredocBody
  have hsplit : splitNl (c.data ++ '\n' :: heredocDelim) = splitNl c.data ++ [heredocDelim] := by
    rw [splitNl_append_newline]
    have hd : splitNl heredocDelim = [heredocDelim] := by decide
    rw [hd]
  rw [hsplit]
  have hmem : (splitNl c.data ++ [heredocDelim]).contains heredocDelim = true := by
    simp [List.elem_iff]
  rw [if_pos hmem]
  exact ⟨_, rfl⟩

theorem lookupFile_insertFile (vfs : Vfs) (p c : String) :
    lookupFile (insertFile vfs p c) p = some c := by
  simp [lookupFile, insertFile, List.lookup]

/-- C8: `BashKitBackend.edit` is atomic on error — when the file is
missing, when `old` does not occur, or when it occurs more than once with
`replace_all = false`, the result reports `success = false` and the VFS is
left unchanged; a successful edit writes exactly the replaced content
through `BashKitBackend.write`, and only when the occurrence count
permits. -/
theorem c8_edit_atomic :
    ∀ (vfs : Vfs) (path old new : String) (all : Bool),
      ((BashKitBackend.edit vfs path old new all).1.success = false →
        (BashKitBackend.edit vfs path old new all).2 = vfs) ∧
      (lookupFile vfs path = none →
        (BashKitBackend.edit vfs path old new all).1.success = false) ∧
      (∀ content, lookupFile vfs path = some content →
        (pyCount content old = 0 →
          (BashKitBackend.edit vfs path old new all).1.success = false) ∧
        (1 < pyCount content old → all = false →
          (BashKitBackend.edit vfs path old new all).1.success = false) ∧
        ((BashKitBackend.edit vfs path old new all).1.success = true →
          0 < pyCount content old ∧ (pyCount content old = 1 ∨ all = true) ∧
          (BashKitBackend.edit vfs path old new all).2 =
            (BashKitBackend.write vfs path
              (if all then pyReplaceAll content old new
               else pyReplaceFirst content old new)).2)) := by
  intro vfs path old new all
  cases hlook : lookupFile vfs path with
  | none =>
    have hedit : BashKitBackend.edit vfs path old new all =
        (⟨false, some ("File not found: " ++ path)⟩, vfs) := by
      unfold BashKitBackend.edit catFile
      rw [hlook]
      simp
    refine ⟨fun _ => by rw [hedit], fun _ => by rw [hedit], ?_⟩
    intro content hc
    exact absurd hc (by simp)
  | some content0 =>
    have hcat : catFile vfs path = ⟨content0, "", 0, none⟩ := by
      unfold catFile
      rw [hlook]
    by_cases h0 : pyCount content0 old = 0
    · have hedit : BashKitBackend.edit vfs path old new all =
          (⟨false, some "old_string not found in file"⟩, vfs) := by
        unfold BashKitBackend.edit
        rw [hcat]
        simp [h0]
      refine ⟨fun _ => by rw [hedit], fun hn => absurd hn (by simp), ?_⟩
      intro content hc
      injection hc with hc
      subst hc
      refine ⟨fun _ => by rw [hedit], fun h1 _ => absurd h0 (by omega), fun hs => ?_⟩
      rw [hedit] at hs
      exact absurd hs (by simp)
    · by_cases hm : 1 < pyCount content0 old ∧ all = false
      · have hedit : BashKitBackend.edit vfs path old new all =
            (⟨false, some ("old_string found " ++ toString (pyCount content0 old) ++
              " times. Use replace_all=True or provide more context.")⟩, vfs) := by
          unfold BashKitBackend.edit
          rw [hcat]
          simp [h0, hm]
        refine ⟨fun _ => by rw [hedit], fun hn => absurd hn (by simp), ?_⟩
        intro content hc
        injection hc with hc
        subst hc
        refine ⟨fun hz => absurd hz h0, fun _ _ => by rw [hedit], fun hs => ?_⟩
        rw [hedit] at hs
        exact absurd hs (by simp)
      · obtain ⟨body, hb⟩ := heredocBody_isSome
          (if all then pyReplaceAll content0 old new else pyReplaceFirst content0 old new)
        have hw : BashKitBackend.write vfs path
            (if all then pyReplaceAll content0 old new else pyReplaceFirst content0 old new) =
            (⟨true, none⟩, insertFile vfs path (String.mk body)) := by
          unfold BashKitBackend.write
          rw [hb]
        have hedit : BashKitBackend.edit vfs path old new all =
            (⟨true, none⟩, insertFile vfs path (String.mk body)) := by
          unfold BashKitBackend.edit
          rw [hcat]
          simp [h0, hm, hw]
        refine ⟨fun hf => by rw [hedit] at hf; exact absurd hf (by simp),
          fun hn => absurd hn (by simp), ?_⟩
        intro content hc
        injection hc with hc
        subst hc
        refine ⟨fun hz => absurd hz h0, fun ha hb2 => absurd ⟨ha, hb2⟩ hm, fun _ => ?_⟩
        refine ⟨Nat.pos_of_ne_zero h0, ?_, ?_⟩
        · rcases not_and_or.mp hm with hlt | hall
          · left; omega
          · right; revert hall; cases all <;> simp
        · rw [hedit, hw]

/-- Witness for C8 at a missing occurrence. -/
theorem c8_edit_atomic_witness :
    (BashKitBackend.edit [("/a.txt", "hello\n")] "/a.txt" "zzz" "w" false).1.success = false :=
  ((c8_edit_atomic [("/a.txt", "hello\n")] "/a.txt" "zzz" "w" false).2.2 "hello\n" rfl).1 (by decide)

/-- C9: the DeepAgents write/read round trip — for content with no line
equal to BASHKIT_EOF, `BashKitBackend.write` succeeds and embeds the
content verbatim through the quoted here-document, and reading the file
back (via `download_files`, i.e. `cat`) returns the content followed by
exactly one appended trailing newline. -/
theorem c9_write_download_roundtrip :
    ∀ (vfs : Vfs) (path content : String),
      heredocDelim ∉ splitNl content.data →
      (BashKitBackend.write vfs path content).1.success = true ∧
      lookupFile (BashKitBackend.write vfs path content).2 path = some (content ++ "\n") ∧
      BashKitBackend.downloadFiles (BashKitBackend.write vfs path content).2 [path] =
        [⟨path, some (content ++ "\n"), none⟩] := by
  intro vfs path content h
  have hb := heredocBody_of_no_delim content h
  have hmk : String.mk (content.data ++ ['\n']) = content ++ "\n" := rfl
  have hw : BashKitBackend.write vfs path content =
      (⟨true, none⟩, insertFile vfs path (content ++ "\n")) := by
    unfold BashKitBackend.write
    simp only [hb]
    rw [hmk]
  rw [hw]
  have hl : lookupFile (insertFile vfs path (content ++ "\n")) path = some (content ++ "\n") :=
    lookupFile_insertFile vfs path (content ++ "\n")
  refine ⟨rfl, hl, ?_⟩
  unfold BashKitBackend.downloadFiles catFile
  simp [hl]

/-- Witness for C9 at concrete content. -/
theorem c9_write_download_roundtrip_witness :
    (BashKitBackend.write [] "/tmp/t.txt" "hello world").1.success = true ∧
    lookupFile (BashKitBackend.write [] "/tmp/t.txt" "hello world").2 "/tmp/t.txt" =
      some ("hello world" ++ "\n") ∧
    BashKitBackend.downloadFiles (BashKitBackend.write [] "/tmp/t.txt" "hello world").2
      ["/tmp/t.txt"] = [⟨"/tmp/t.txt", some ("hello world" ++ "\n"), none⟩] :=
  c9_write_download_roundtrip [] "/tmp/t.txt" "hello world" (by decide)

/-- C10 counterexample: the claim says `_run` raises exactly when the
`error` field is non-null, but with `error = some ""` (non-null, empty)
the Python truthiness test skips the raise and the wrapper returns the
stdout text. -/
theorem c10_counterexample :
    (ExecResult.mk "out" "" 0 (some "")).error ≠ none ∧
    toolRun ⟨"out", "", 0, some ""⟩ = .ok "out" ∧
    toolArun ⟨"out", "", 0, some ""⟩ = .ok "out" :=
  ⟨by simp, rfl, rfl⟩

/-- C10 (amended): `_run` (and `_arun`, which is identical) raises exactly
when the `ExecResult.error` field is non-null and non-empty; otherwise it
returns stdout with "\nSTDERR: " plus stderr appended when stderr is
non-empty and "\n[Exit code: N]" appended when the exit code is
nonzero. -/
theorem c10_run_raises_iff_truthy_error :
    ∀ r : ExecResult,
      ((∃ m, toolRun r = .error m) ↔ (∃ s, r.error = some s ∧ s ≠ "")) ∧
      (∀ s, r.error = some s → s ≠ "" → toolRun r = .error ("Execution error: " ++ s)) ∧
      ((r.error = none ∨ r.error = some "") →
        toolRun r = .ok (r.stdout
          ++ (if r.stderr = "" then "" else "\nSTDERR: " ++ r.stderr)
          ++ (if r.exit_code ≠ 0 then "\n[Exit code: " ++ toString r.exit_code ++ "]" else ""))) ∧
      toolArun r = toolRun r := by
  intro r
  refine ⟨⟨?_, ?_⟩, ?_, ?_, rfl⟩
  · rintro ⟨m, hm⟩
    cases herr : r.error with
    | none => rw [toolRun, herr] at hm; simp [pyTruthyStr] at hm
    | some s =>
      by_cases hs : s = ""
      · subst hs
        rw [toolRun, herr] at hm
        simp [pyTruthyStr] at hm
      · exact ⟨s, rfl, hs⟩
  · rintro ⟨s, hs, hne⟩
    rw [toolRun, hs]
    have : pyTruthyStr (some s) = true := by simp [pyTruthyStr, hne]
    rw [this]
    exact ⟨_, rfl⟩
  · intro s hs hne
    rw [toolRun, hs]
    have : pyTruthyStr (some s) = true := by simp [pyTruthyStr, hne]
    rw [this]
    simp
  · intro herr
    have htr : pyTruthyStr r.error = false := by
      rcases herr with h | h <;> rw [h] <;> simp [pyTruthyStr]
    rw [toolRun, htr]
    by_cases h1 : r.stderr = "" <;> by_cases h2 : r.exit_code ≠ 0 <;>
      simp [h1, h2, String.append_assoc]

/-- Witness for the amended C10 theorem at a concrete result. -/
theorem c10_run_raises_iff_truthy_error_witness :
    toolRun ⟨"hi", "e", 3, none⟩ = .ok "hi\nSTDERR: e\n[Exit code: 3]" := by
  have h := (c10_run_raises_iff_truthy_error ⟨"hi", "e", 3, none⟩).2.2.1 (Or.inl rfl)
  exact h
